import Mathlib

/-!
Verification development for the `create-release-pr` action
(`src/index.ts`).  The reconciliation core is embedded shallowly:

* the pure helpers (`parseSemVer`, `cmpSemVer`, `detectBump`,
  `calcNext`, `buildPRText`, the tag selection of `latestTag` and the
  filtering of `findOpenReleasePR`) are translated directly;
* the GitHub platform is a `World` record (tag list, pull requests,
  commit-associated pull requests, branches, a deterministic
  release-notes oracle, and the number/url the platform would assign to
  a newly created pull request);
* the best-effort calls that `run` wraps in `.catch` (tag listing,
  commit-association lookup, open-PR search, notes generation) can fail;
  which of them fail in a given invocation is recorded in `Flags`;
* `runModel` is the event-routing function `run`, returning either an
  error (the `core.setFailed` path) or the emitted outputs together with
  the updated world and the list of mutations performed.

JavaScript `Array.prototype.sort` is required to be a stable sort, so
the tag ordering step is modelled with the stable `List.insertionSort`.
-/

namespace CRPR

/-- Version triple, `type SemVer` in the source. -/
structure SemVer where
  major : Nat
  minor : Nat
  patch : Nat
deriving DecidableEq, Repr

/-- Decimal value of a digit run, as JavaScript `+"123"` computes it. -/
def natOfDigits (ds : List Char) : Nat :=
  ds.foldl (fun a c => a * 10 + (c.toNat - 48)) 0

/-- Character-level reading of the regex
`^(\d+)\.(\d+)\.(\d+)(?:[-+].*)?$` used by `parseSemVer`:
three maximal digit runs separated by dots, then either the end of the
string or a pre-release/build suffix starting with `-` or `+`. -/
def parseSemVerChars (cs : List Char) : Option SemVer :=
  let d1 := cs.takeWhile Char.isDigit
  let r1 := cs.dropWhile Char.isDigit
  if d1 = [] then none else
  match r1 with
  | '.' :: r1' =>
    let d2 := r1'.takeWhile Char.isDigit
    let r2 := r1'.dropWhile Char.isDigit
    if d2 = [] then none else
    match r2 with
    | '.' :: r2' =>
      let d3 := r2'.takeWhile Char.isDigit
      let r3 := r2'.dropWhile Char.isDigit
      if d3 = [] then none else
      match r3 with
      | [] => some ⟨natOfDigits d1, natOfDigits d2, natOfDigits d3⟩
      | c :: _ =>
        if c = '-' ∨ c = '+' then some ⟨natOfDigits d1, natOfDigits d2, natOfDigits d3⟩
        else none
    | _ => none
  | _ => none

/-- `parseSemVer` from the source. -/
def parseSemVer (s : String) : Option SemVer := parseSemVerChars s.data

/-- `cmpSemVer` from the source: returns the first nonzero component
difference (a JavaScript comparator, not a `{-1,0,1}` value). -/
def cmpSemVer (a b : SemVer) : Int :=
  if a.major ≠ b.major then (a.major : Int) - (b.major : Int)
  else if a.minor ≠ b.minor then (a.minor : Int) - (b.minor : Int)
  else (a.patch : Int) - (b.patch : Int)

/-- JavaScript `s.startsWith(p)` (character-level). -/
def strStarts (s p : String) : Bool := p.data.isPrefixOf s.data

/-- The filter/parse pipeline inside `latestTag`: keep nonempty names
carrying the tag prefix whose remainder parses as SemVer, paired with
the parsed version. -/
def keptTags (tags : List String) (pfx : String) : List (String × SemVer) :=
  (tags.filter (fun n => !(n = "") && strStarts n pfx)).filterMap
    (fun n => (parseSemVer (n.drop pfx.length)).map (fun v => (n, v)))

/-- Comparator order used by `latestTag`'s `.sort`. -/
def semLe (a b : String × SemVer) : Prop := cmpSemVer a.2 b.2 ≤ 0

instance : DecidableRel semLe := fun a b =>
  inferInstanceAs (Decidable (cmpSemVer a.2 b.2 ≤ 0))

/-- `latestTag` from the source: sort the kept tags by the comparator
(stable, like the JavaScript engine's sort) and take the last name. -/
def latestTag (tags : List String) (pfx : String) : Option String :=
  (((keptTags tags pfx).insertionSort semLe).getLast?).map (fun x => x.1)

/-- `type BumpLevel` from the source. -/
inductive BumpLevel where
  | major
  | minor
  | patch
  | unknown
deriving DecidableEq, Repr

/-- Rendering of a bump level for the `bump_level` output. -/
def bumpStr : BumpLevel → String
  | .major => "major"
  | .minor => "minor"
  | .patch => "patch"
  | .unknown => "unknown"

/-- `detectBump` from the source: set membership of the three configured
label names, in priority order. -/
def detectBump (labels : List String) (labelMajor labelMinor labelPatch : String) : BumpLevel :=
  if labelMajor ∈ labels then .major
  else if labelMinor ∈ labels then .minor
  else if labelPatch ∈ labels then .patch
  else .unknown

/-- Rendering `${major}.${minor}.${patch}`. -/
def verString (v : SemVer) : String :=
  toString v.major ++ "." ++ toString v.minor ++ "." ++ toString v.patch

/-- `calcNext` from the source.  The `.error` case is the `throw` for a
current tag that carries the prefix but does not parse. -/
def calcNext (pfx : String) (currentTag : Option String) (lvl : BumpLevel) :
    Except String String :=
  let cur? : Option SemVer :=
    match currentTag with
    | some t =>
      if t = "" then some ⟨0, 0, 0⟩
      else if strStarts t pfx then parseSemVer (t.drop pfx.length)
      else some ⟨0, 0, 0⟩
    | none => some ⟨0, 0, 0⟩
  match cur? with
  | none => .error ("Current tag is not SemVer with prefix: " ++ currentTag.getD "")
  | some v =>
    let v' : SemVer :=
      match lvl with
      | .major => ⟨v.major + 1, 0, 0⟩
      | .minor => ⟨v.major, v.minor + 1, 0⟩
      | .patch => ⟨v.major, v.minor, v.patch + 1⟩
      | .unknown => v
    .ok (pfx ++ verString v')

/-- Title/body pair returned by `buildPRText`. -/
structure PRText where
  title : String
  body : String
deriving DecidableEq, Repr

/-- JavaScript `parts.join('\n')`. -/
def joinNL : List String → String
  | [] => ""
  | [a] => a
  | a :: b :: r => a ++ "\n" ++ joinNL (b :: r)

/-- `buildPRText` from the source. -/
def buildPRText (owner repo baseBranch : String) (currentTag : Option String)
    (nextTag notes : String) : PRText :=
  let title := if nextTag = "" then "Release for new version" else "Release for " ++ nextTag
  let curDisp :=
    match currentTag with
    | some t => if t = "" then "(none)" else t
    | none => "(none)"
  let parts : List String :=
    ["Release prepared by create-release-pr", "",
     "- Current Tag: " ++ curDisp,
     "- Next Tag: " ++ (if nextTag = "" then "(TBD: set bump:major/minor/patch)" else nextTag),
     "- Target: " ++ baseBranch, "", "---", ""]
  let parts := if notes = "" then parts else parts ++ [notes]
  let parts :=
    match currentTag with
    | some t =>
      if t = "" then parts
      else parts ++ ["\nFull Changelog: https://github.com/" ++ owner ++ "/" ++ repo ++
        "/compare/" ++ t ++ "..." ++ baseBranch]
    | none => parts
  { title := title, body := joinNL parts }

/-- Pull request record as the platform reports it. -/
structure PRrec where
  number : Nat
  html_url : String
  headRef : Option String
  labels : List String
  title : String
  body : String
  baseRef : String
  isOpen : Bool
deriving DecidableEq, Repr

/-- Platform state observed and mutated during one invocation. -/
structure World where
  tags : List String
  prs : List PRrec
  assoc : List PRrec
  branches : List String
  notes : String → String
  nextNumber : Nat
  nextUrl : String

/-- Which of the best-effort (caught) platform calls fail during the
invocation. -/
structure Flags where
  tagsFail : Bool := false
  assocFail : Bool := false
  findFail : Bool := false
  notesFail : Bool := false
deriving DecidableEq, Repr

/-- Inbound configuration of `run`. -/
structure Config where
  owner : String
  repo : String
  baseBranch : String
  releaseBranch : String
  labelMajor : String
  labelMinor : String
  labelPatch : String
  tagPfx : String
deriving DecidableEq, Repr

/-- Pull request object inside a `pull_request` event payload. -/
structure EventPR where
  number : Nat
  html_url : String
  headRef : Option String
  labels : List String
deriving DecidableEq, Repr

/-- Inbound event. -/
inductive Event where
  | pullRequest (action : String) (pr : Option EventPR)
  | push
  | other
deriving DecidableEq, Repr

/-- The record of `core.setOutput` values emitted by one invocation
(fields the run does not set stay empty). -/
structure Outcome where
  state : String := ""
  pr_number : String := ""
  pr_url : String := ""
  pr_branch : String := ""
  current_tag : String := ""
  next_tag : String := ""
  bump_level : String := ""
  release_notes : String := ""
deriving DecidableEq, Repr

/-- Mutating platform calls issued by one invocation. -/
inductive Mut where
  | patchPR (number : Nat) (title body : String)
  | createPR (title head base body : String)
  | createCommit
  | createRef (name : String)
deriving DecidableEq, Repr

/-- Outcome of the `noop` exits (only the `state` output is set). -/
def noopOutcome : Outcome := { state := "noop" }

/-- Per-record effect of `PATCH /pulls/{n}`: set title/body on the pull
request numbered `n`, leave every other record unchanged. -/
def setTB (ti bo : String) (n : Nat) (x : PRrec) : PRrec :=
  if x.number == n then { x with title := ti, body := bo } else x

/-- `PATCH /pulls/{n}`: update title/body of the pull request numbered
`n`; the response is the updated record, or `none` (HTTP failure) when
no such pull request exists. -/
def patchPR (w : World) (n : Nat) (ti bo : String) : World × Option PRrec :=
  match w.prs.find? (fun p => p.number == n) with
  | none => (w, none)
  | some p =>
    ({ w with prs := w.prs.map (setTB ti bo n) },
     some { p with title := ti, body := bo })

/-- `POST /pulls`: create an open pull request (no labels attached) and
return it; the platform assigns `nextNumber`/`nextUrl`. -/
def createPR (w : World) (ti head base bo : String) : World × PRrec :=
  let p : PRrec :=
    { number := w.nextNumber, html_url := w.nextUrl, headRef := some head,
      labels := [], title := ti, body := bo, baseRef := base, isOpen := true }
  ({ w with prs := w.prs ++ [p], nextNumber := w.nextNumber + 1 }, p)

/-- `findOpenReleasePR` from the source: the server-side query
`state=open&base={baseBranch}&head={owner}:{releaseBranch}`, taking the
first result or null. -/
def findOpenReleasePR (prs : List PRrec) (c : Config) : Option PRrec :=
  (prs.filter (fun p =>
    p.isOpen && p.baseRef == c.baseBranch && p.headRef == some c.releaseBranch)).head?

/-- `ensureReleaseBranch` from the source: return unchanged when the
release branch ref resolves; otherwise create an empty commit on the
base branch's tree and a ref for it (fatal when the base branch is
missing). -/
def ensureReleaseBranch (c : Config) (w : World) : Except String (World × List Mut) :=
  if c.releaseBranch ∈ w.branches then .ok (w, [])
  else if c.baseBranch ∈ w.branches then
    .ok ({ w with branches := c.releaseBranch :: w.branches },
         [Mut.createCommit, Mut.createRef c.releaseBranch])
  else .error "base branch missing"

/-- `latestTag(...).catch(() => null)`. -/
def readTag (fl : Flags) (c : Config) (w : World) : Option String :=
  if fl.tagsFail then none else latestTag w.tags c.tagPfx

/-- `generateNotes(...).catch(() => '')` with the oracle response
(`res.body || ''`). -/
def readNotes (fl : Flags) (w : World) (tagName : String) : String :=
  if fl.notesFail then "" else w.notes tagName

/-- `bumpLevel === 'unknown' ? '' : calcNext(...)`. -/
def nextTagOf (pfx : String) (cur : Option String) (b : BumpLevel) : Except String String :=
  if b = .unknown then .ok "" else calcNext pfx cur b

/-- The update path of the `pull_request` event branch of `run`. -/
def prLabelPath (c : Config) (fl : Flags) (w : World) (pr : EventPR) :
    Except String (Outcome × World × List Mut) :=
  let cur := readTag fl c w
  let bump := detectBump pr.labels c.labelMajor c.labelMinor c.labelPatch
  match nextTagOf c.tagPfx cur bump with
  | .error e => .error e
  | .ok nextTag =>
    let notesTag := if nextTag = "" then c.tagPfx ++ "next" else nextTag
    let notes := readNotes fl w notesTag
    let t := buildPRText c.owner c.repo c.baseBranch cur nextTag notes
    match patchPR w pr.number t.title t.body with
    | (_, none) => .error "patch failed"
    | (w1, some _) =>
      .ok ({ state := "pr_changed", pr_number := toString pr.number, pr_url := pr.html_url,
             pr_branch := c.releaseBranch, current_tag := cur.getD "", next_tag := nextTag,
             bump_level := bumpStr bump, release_notes := notes },
           w1, [Mut.patchPR pr.number t.title t.body])

/-- The recursion-guard branch of the `push` path of `run` (a pull
request associated with the pushed commit has the release branch as
head). -/
def pushRelPath (c : Config) (fl : Flags) (w : World) (relPR : PRrec) :
    Except String (Outcome × World × List Mut) :=
  let cur := readTag fl c w
  let bump := detectBump relPR.labels c.labelMajor c.labelMinor c.labelPatch
  match nextTagOf c.tagPfx cur bump with
  | .error e => .error e
  | .ok nextTag =>
    .ok ({ state := "release_required", pr_number := "", pr_url := "", pr_branch := "",
           current_tag := cur.getD "", next_tag := nextTag, bump_level := bumpStr bump,
           release_notes := "" },
         w, [])

/-- The update branch of the `push` path of `run` (an open release pull
request exists). -/
def pushExistingPath (c : Config) (fl : Flags) (w : World) (cur : Option String)
    (ex : PRrec) : Except String (Outcome × World × List Mut) :=
  let bump := detectBump ex.labels c.labelMajor c.labelMinor c.labelPatch
  match nextTagOf c.tagPfx cur bump with
  | .error e => .error e
  | .ok nextTag =>
    let notesTag := if nextTag = "" then c.tagPfx ++ "next" else nextTag
    let notes := readNotes fl w notesTag
    let t := buildPRText c.owner c.repo c.baseBranch cur nextTag notes
    match patchPR w ex.number t.title t.body with
    | (_, none) => .error "patch failed"
    | (w1, some upd) =>
      .ok ({ state := "pr_changed", pr_number := toString upd.number, pr_url := upd.html_url,
             pr_branch := c.releaseBranch, current_tag := cur.getD "", next_tag := nextTag,
             bump_level := bumpStr bump, release_notes := notes },
           w1, [Mut.patchPR ex.number t.title t.body])

/-- The creation branch of the `push` path of `run` (no open release
pull request): ensure the release branch, then create the pull request
with bump level forced to `unknown`. -/
def pushCreatePath (c : Config) (fl : Flags) (w : World) (cur : Option String) :
    Except String (Outcome × World × List Mut) :=
  match ensureReleaseBranch c w with
  | .error e => .error e
  | .ok (w1, muts) =>
    let notes := readNotes fl w1 (c.tagPfx ++ "next")
    let t := buildPRText c.owner c.repo c.baseBranch cur "" notes
    let (w2, created) := createPR w1 t.title c.releaseBranch c.baseBranch t.body
    .ok ({ state := "pr_changed", pr_number := toString created.number,
           pr_url := created.html_url, pr_branch := c.releaseBranch,
           current_tag := cur.getD "", next_tag := "", bump_level := "unknown",
           release_notes := notes },
         w2, muts ++ [Mut.createPR t.title c.releaseBranch c.baseBranch t.body])

/-- The event router `run` from the source. -/
def runModel (c : Config) (fl : Flags) (ev : Event) (w : World) :
    Except String (Outcome × World × List Mut) :=
  match ev with
  | .pullRequest action pr? =>
    if action = "labeled" ∨ action = "unlabeled" then
      match pr? with
      | none => .ok (noopOutcome, w, [])
      | some pr =>
        match pr.headRef with
        | some r =>
          if r = c.releaseBranch then prLabelPath c fl w pr
          else .ok (noopOutcome, w, [])
        | none => prLabelPath c fl w pr
    else .ok (noopOutcome, w, [])
  | .push =>
    let assoc := if fl.assocFail then [] else w.assoc
    match assoc.find? (fun p => p.headRef == some c.releaseBranch) with
    | some relPR => pushRelPath c fl w relPR
    | none =>
      let cur := readTag fl c w
      let ex? := if fl.findFail then none else findOpenReleasePR w.prs c
      match ex? with
      | some ex =>
        if ex.number ≠ 0 then pushExistingPath c fl w cur ex
        else pushCreatePath c fl w cur
      | none => pushCreatePath c fl w cur
  | .other => .ok (noopOutcome, w, [])

/-- Strict lexicographic order on version triples (major, then minor,
then patch). -/
def semLt (a b : SemVer) : Prop :=
  a.major < b.major ∨
    (a.major = b.major ∧ (a.minor < b.minor ∨ (a.minor = b.minor ∧ a.patch < b.patch)))

/-- C4: for every valid version and every bump level in
{major, minor, patch}, `calcNext` increments exactly that component,
resets the lower-order components to zero and keeps the higher-order
components; an absent base tag is treated as version 0.0.0. -/
theorem calcNext_increment (pfx t : String) (v : SemVer) (lvl : BumpLevel)
    (ht : t ≠ "") (hp : strStarts t pfx = true)
    (hv : parseSemVer (t.drop pfx.length) = some v) :
    (lvl = .major →
      calcNext pfx (some t) lvl = .ok (pfx ++ verString ⟨v.major + 1, 0, 0⟩) ∧
      calcNext pfx none lvl = .ok (pfx ++ verString ⟨1, 0, 0⟩)) ∧
    (lvl = .minor →
      calcNext pfx (some t) lvl = .ok (pfx ++ verString ⟨v.major, v.minor + 1, 0⟩) ∧
      calcNext pfx none lvl = .ok (pfx ++ verString ⟨0, 1, 0⟩)) ∧
    (lvl = .patch →
      calcNext pfx (some t) lvl = .ok (pfx ++ verString ⟨v.major, v.minor, v.patch + 1⟩) ∧
      calcNext pfx none lvl = .ok (pfx ++ verString ⟨0, 0, 1⟩)) := by
  refine ⟨?_, ?_, ?_⟩ <;> rintro rfl <;>
    exact ⟨by simp [calcNext, ht, hp, hv], by simp [calcNext]⟩

/-- C4 witness: incrementing `v1.2.3` by `minor` yields `v1.3.0`, and
incrementing an absent base by `minor` yields `v0.1.0`. -/
theorem calcNext_increment_witness :
    calcNext "v" (some "v1.2.3") .minor = .ok "v1.3.0" ∧
    calcNext "v" none .minor = .ok "v0.1.0" := by
  have h := (calcNext_increment "v" "v1.2.3" ⟨1, 2, 3⟩ .minor (by decide) (by decide)
    (by decide)).2.1 rfl
  exact ⟨h.1.trans (congrArg Except.ok (by decide)),
         h.2.trans (congrArg Except.ok (by decide))⟩

/-- C5: `detectBump` classifies by fixed priority: `major` whenever the
major label is present, else `minor` whenever the minor label is
present, else `patch` whenever the patch label is present, else
`unknown`; in particular the label set {major, patch} classifies as
`major`. -/
theorem detectBump_priority (labels : List String) (lM lm lp : String) :
    (lM ∈ labels → detectBump labels lM lm lp = .major) ∧
    (lM ∉ labels → lm ∈ labels → detectBump labels lM lm lp = .minor) ∧
    (lM ∉ labels → lm ∉ labels → lp ∈ labels → detectBump labels lM lm lp = .patch) ∧
    (lM ∉ labels → lm ∉ labels → lp ∉ labels → detectBump labels lM lm lp = .unknown) ∧
    detectBump [lM, lp] lM lm lp = .major := by
  refine ⟨?_, ?_, ?_, ?_, ?_⟩ <;> intros <;> simp [detectBump, *]

/-- C5 witness: with the default label names, the set
{bump:major, bump:patch} classifies as `major`. -/
theorem detectBump_priority_witness :
    detectBump ["bump:major", "bump:patch"] "bump:major" "bump:minor" "bump:patch" =
      .major :=
  (detectBump_priority ["bump:major", "bump:patch"] "bump:major" "bump:minor"
    "bump:patch").1 (by decide)

instance : IsTotal (String × SemVer) semLe :=
  ⟨by
    intro a b
    simp only [semLe, cmpSemVer]
    split_ifs <;> omega⟩

instance : IsTrans (String × SemVer) semLe :=
  ⟨by
    intro a b c hab hbc
    simp only [semLe, cmpSemVer] at *
    split_ifs at * <;> omega⟩

theorem semLe_refl (a : String × SemVer) : semLe a a := by
  simp [semLe, cmpSemVer]

/-- In a `Pairwise r` list with a reflexive `r`, every element is
related to the last element. -/
theorem pairwise_rel_getLast {α : Type} {r : α → α → Prop} (hrefl : ∀ a, r a a) :
    ∀ (l : List α) (x : α), l.Pairwise r → l.getLast? = some x → ∀ y ∈ l, r y x
  | [], _, _, hx, _, hy => Option.noConfusion hx
  | [a], x, _, hx, y, hy => by
    have hax : a = x := by
      have hone : ([a] : List α).getLast? = some a := rfl
      rw [hone] at hx
      exact Option.some.inj hx
    simp only [List.mem_singleton] at hy
    subst hax hy
    exact hrefl y
  | a :: b :: t, x, hp, hx, y, hy => by
    have hx' : (b :: t).getLast? = some x := by
      rwa [List.getLast?_cons_cons] at hx
    have hmem : x ∈ b :: t := List.mem_of_mem_getLast? hx'
    rcases List.mem_cons.mp hy with rfl | hy'
    · exact (List.pairwise_cons.mp hp).1 x hmem
    · exact pairwise_rel_getLast hrefl (b :: t) x (List.pairwise_cons.mp hp).2 hx' y hy'

/-- Characterisation of `keptTags` membership: every kept entry is a
nonempty name carrying the prefix whose remainder parses to the paired
version. -/
theorem mem_keptTags {tags : List String} {pfx t : String} {v : SemVer}
    (h : (t, v) ∈ keptTags tags pfx) :
    t ∈ tags ∧ t ≠ "" ∧ strStarts t pfx = true ∧
      parseSemVer (t.drop pfx.length) = some v := by
  simp only [keptTags, List.mem_filterMap, List.mem_filter] at h
  obtain ⟨n, ⟨hn, hq⟩, hf⟩ := h
  rcases hparse : parseSemVer (n.drop pfx.length) with _ | v'
  · rw [hparse] at hf; simp at hf
  · rw [hparse] at hf
    simp only [Option.map_some', Option.some.injEq, Prod.mk.injEq] at hf
    obtain ⟨rfl, rfl⟩ := hf
    simp only [Bool.and_eq_true, Bool.not_eq_eq_eq_not, Bool.not_true, decide_eq_false_iff_not] at hq
    exact ⟨hn, hq.1, hq.2, hparse⟩

/-- C6: `latestTag` returns null exactly when no tag both carries the
prefix and parses as SemVer; prepending a tag that lacks the prefix (or
is empty) or fails to parse never changes the result (such tags are
skipped, not fatal); any returned tag is one of the kept tags and its
version is maximal under `cmpSemVer` among all kept tags; and with
prefix `ver-` among `ver-2.0.0`, `latest`, `ver-x.y.z` the resolver
selects `ver-2.0.0`. -/
theorem latestTag_max (tags : List String) (pfx : String) :
    (latestTag tags pfx = none ↔ keptTags tags pfx = []) ∧
    (∀ n, (n = "" ∨ strStarts n pfx = false) ∨ parseSemVer (n.drop pfx.length) = none →
      latestTag (n :: tags) pfx = latestTag tags pfx) ∧
    (∀ t, latestTag tags pfx = some t →
      ∃ v, (t, v) ∈ keptTags tags pfx ∧
        ∀ p ∈ keptTags tags pfx, cmpSemVer p.2 v ≤ 0) ∧
    latestTag ["ver-2.0.0", "latest", "ver-x.y.z"] "ver-" = some "ver-2.0.0" := by
  refine ⟨?_, ?_, ?_, by decide⟩
  · constructor
    · intro h
      simp only [latestTag, Option.map_eq_none', List.getLast?_eq_none_iff] at h
      have hperm := (List.perm_insertionSort semLe (keptTags tags pfx)).symm
      rw [h] at hperm
      exact hperm.eq_nil
    · intro h
      simp [latestTag, h, List.insertionSort]
  · intro n hn
    have hkept : keptTags (n :: tags) pfx = keptTags tags pfx := by
      rcases hn with h1 | h2
      · rcases h1 with rfl | hs
        · simp [keptTags]
        · simp [keptTags, hs]
      · by_cases he : n = ""
        · simp [keptTags, he]
        · simp only [keptTags, List.filter_cons]
          split
          · simp [h2]
          · rfl
    simp [latestTag, hkept]
  · intro t ht
    simp only [latestTag, Option.map_eq_some'] at ht
    obtain ⟨x, hx, hx1⟩ := ht
    have hperm := List.perm_insertionSort semLe (keptTags tags pfx)
    have hmem : x ∈ keptTags tags pfx :=
      hperm.mem_iff.mp (List.mem_of_mem_getLast? hx)
    have hsorted := List.sorted_insertionSort semLe (keptTags tags pfx)
    have hmax := pairwise_rel_getLast semLe_refl _ x hsorted hx
    refine ⟨x.2, ?_, ?_⟩
    · rw [← hx1]
      simpa using hmem
    · intro p hp
      exact hmax p (hperm.mem_iff.mpr hp)

/-- C6 witness: on the tag list `v1.0.0`, `v2.1.0` the resolver returns
a kept tag whose version dominates every kept tag. -/
theorem latestTag_max_witness :
    ∃ v, ("v2.1.0", v) ∈ keptTags ["v1.0.0", "v2.1.0"] "v" ∧
      ∀ p ∈ keptTags ["v1.0.0", "v2.1.0"] "v", cmpSemVer p.2 v ≤ 0 :=
  (latestTag_max ["v1.0.0", "v2.1.0"] "v").2.2.1 "v2.1.0" (by decide)

/-- C7 counterexample: `cmpSemVer` on versions 3.0.0 and 1.0.0 returns
2, which is not in the set {-1, 0, 1}. -/
theorem cmpSemVer_escapes_unit_range :
    cmpSemVer ⟨3, 0, 0⟩ ⟨1, 0, 0⟩ = 2 ∧
    ¬(cmpSemVer ⟨3, 0, 0⟩ ⟨1, 0, 0⟩ = -1 ∨ cmpSemVer ⟨3, 0, 0⟩ ⟨1, 0, 0⟩ = 0 ∨
      cmpSemVer ⟨3, 0, 0⟩ ⟨1, 0, 0⟩ = 1) := by
  decide

/-- C7 amended: `cmpSemVer` returns an integer whose sign encodes the
lexicographic (major, then minor, then patch) order: negative exactly
when `a` precedes `b`, zero exactly when they are equal, positive
exactly when `a` follows `b`. -/
theorem cmpSemVer_sign (a b : SemVer) :
    (cmpSemVer a b < 0 ↔ semLt a b) ∧ (cmpSemVer a b = 0 ↔ a = b) ∧
    (0 < cmpSemVer a b ↔ semLt b a) := by
  obtain ⟨a1, a2, a3⟩ := a
  obtain ⟨b1, b2, b3⟩ := b
  refine ⟨?_, ?_, ?_⟩ <;>
    simp only [cmpSemVer, semLt, SemVer.mk.injEq] <;> split_ifs <;> omega

/-- Substring containment, used to state which pieces appear in the
generated pull-request body. -/
def strContains (s sub : String) : Prop := ∃ p q, s = p ++ (sub ++ q)

/-- Closed form of the body produced by `buildPRText`: the fixed header
and metadata lines, the divider, then the notes only when nonempty, then
the compare link only when the current tag is truthy. -/
theorem buildPRText_body_eq (owner repo base : String) (cur : Option String)
    (next notes : String) :
    (buildPRText owner repo base cur next notes).body =
      "Release prepared by create-release-pr\n\n- Current Tag: " ++
        (match cur with
         | some t => if t = "" then "(none)" else t
         | none => "(none)") ++
      ("\n- Next Tag: " ++
        (if next = "" then "(TBD: set bump:major/minor/patch)" else next) ++
      ("\n- Target: " ++ base ++ ("\n\n---\n" ++
      ((if notes = "" then "" else "\n" ++ notes) ++
      (match cur with
       | some t =>
         if t = "" then ""
         else "\n\nFull Changelog: https://github.com/" ++ owner ++ "/" ++ repo ++
           "/compare/" ++ t ++ "..." ++ base
       | none => ""))))) := by
  rcases cur with _ | t
  · by_cases hn : notes = "" <;>
      (apply String.ext; simp [buildPRText, joinNL, String.data_append, hn])
  · by_cases ht : t = "" <;> by_cases hn : notes = "" <;>
      (apply String.ext; simp [buildPRText, joinNL, String.data_append, ht, hn])

/-- C8 counterexample: with empty notes the body contains no
placeholder sentence in place of the notes — at current tag absent,
empty next tag and empty notes the whole body is exactly the metadata
template, ending immediately after the divider. -/
theorem buildPRText_empty_notes_no_placeholder :
    (buildPRText "o" "r" "main" none "" "").body =
      "Release prepared by create-release-pr\n\n- Current Tag: (none)\n- Next Tag: (TBD: set bump:major/minor/patch)\n- Target: main\n\n---\n" := by
  decide

/-- C8 amended: the generated body contains the current tag (or the
`(none)` marker), the next tag (or the fixed call-to-action naming the
bump labels), the base branch name, a divider, and the notes text when
the notes are nonempty (nothing is inserted when they are empty); the
compare link from the current tag to the base branch appears when the
current tag is truthy, and when the current tag is absent the body is
exactly the link-free template. -/
theorem buildPRText_contains (owner repo base : String) (cur : Option String)
    (next notes : String) :
    strContains (buildPRText owner repo base cur next notes).body
      ("- Current Tag: " ++
        (match cur with
         | some t => if t = "" then "(none)" else t
         | none => "(none)")) ∧
    strContains (buildPRText owner repo base cur next notes).body
      ("- Next Tag: " ++
        (if next = "" then "(TBD: set bump:major/minor/patch)" else next)) ∧
    strContains (buildPRText owner repo base cur next notes).body
      ("- Target: " ++ base) ∧
    strContains (buildPRText owner repo base cur next notes).body "---" ∧
    (notes ≠ "" → strContains (buildPRText owner repo base cur next notes).body notes) ∧
    (∀ t, cur = some t → t ≠ "" →
      strContains (buildPRText owner repo base cur next notes).body
        ("Full Changelog: https://github.com/" ++ owner ++ "/" ++ repo ++
          "/compare/" ++ t ++ "..." ++ base)) ∧
    (cur = none →
      (buildPRText owner repo base cur next notes).body =
        "Release prepared by create-release-pr\n\n- Current Tag: (none)\n- Next Tag: " ++
          (if next = "" then "(TBD: set bump:major/minor/patch)" else next) ++
        ("\n- Target: " ++ base ++ ("\n\n---\n" ++
          (if notes = "" then "" else "\n" ++ notes)))) := by
  refine ⟨?_, ?_, ?_, ?_, ?_, ?_, ?_⟩
  · refine ⟨"Release prepared by create-release-pr\n\n", ?_, ?_⟩
    · exact "\n- Next Tag: " ++
        (if next = "" then "(TBD: set bump:major/minor/patch)" else next) ++
        ("\n- Target: " ++ base ++ ("\n\n---\n" ++
        ((if notes = "" then "" else "\n" ++ notes) ++
        (match cur with
         | some t =>
           if t = "" then ""
           else "\n\nFull Changelog: https://github.com/" ++ owner ++ "/" ++ repo ++
             "/compare/" ++ t ++ "..." ++ base
         | none => ""))))
    · rw [buildPRText_body_eq]
      apply String.ext
      simp [String.data_append]
  · refine ⟨"Release prepared by create-release-pr\n\n- Current Tag: " ++
      (match cur with
       | some t => if t = "" then "(none)" else t
       | none => "(none)") ++ "\n", ?_, ?_⟩
    · exact "\n- Target: " ++ base ++ ("\n\n---\n" ++
        ((if notes = "" then "" else "\n" ++ notes) ++
        (match cur with
         | some t =>
           if t = "" then ""
           else "\n\nFull Changelog: https://github.com/" ++ owner ++ "/" ++ repo ++
             "/compare/" ++ t ++ "..." ++ base
         | none => "")))
    · rw [buildPRText_body_eq]
      apply String.ext
      simp [String.data_append]
  · refine ⟨"Release prepared by create-release-pr\n\n- Current Tag: " ++
      (match cur with
       | some t => if t = "" then "(none)" else t
       | none => "(none)") ++
      ("\n- Next Tag: " ++
        (if next = "" then "(TBD: set bump:major/minor/patch)" else next)) ++ "\n", ?_, ?_⟩
    · exact "\n\n---\n" ++
        ((if notes = "" then "" else "\n" ++ notes) ++
        (match cur with
         | some t =>
           if t = "" then ""
           else "\n\nFull Changelog: https://github.com/" ++ owner ++ "/" ++ repo ++
             "/compare/" ++ t ++ "..." ++ base
         | none => ""))
    · rw [buildPRText_body_eq]
      apply String.ext
      simp [String.data_append]
  · refine ⟨"Release prepared by create-release-pr\n\n- Current Tag: " ++
      (match cur with
       | some t => if t = "" then "(none)" else t
       | none => "(none)") ++
      ("\n- Next Tag: " ++
        (if next = "" then "(TBD: set bump:major/minor/patch)" else next)) ++
      ("\n- Target: " ++ base) ++ "\n\n", ?_, ?_⟩
    · exact "\n" ++
        ((if notes = "" then "" else "\n" ++ notes) ++
        (match cur with
         | some t =>
           if t = "" then ""
           else "\n\nFull Changelog: https://github.com/" ++ owner ++ "/" ++ repo ++
             "/compare/" ++ t ++ "..." ++ base
         | none => ""))
    · rw [buildPRText_body_eq]
      apply String.ext
      simp [String.data_append]
  · intro hn
    refine ⟨"Release prepared by create-release-pr\n\n- Current Tag: " ++
      (match cur with
       | some t => if t = "" then "(none)" else t
       | none => "(none)") ++
      ("\n- Next Tag: " ++
        (if next = "" then "(TBD: set bump:major/minor/patch)" else next)) ++
      ("\n- Target: " ++ base) ++ "\n\n---\n\n", ?_, ?_⟩
    · exact (match cur with
         | some t =>
           if t = "" then ""
           else "\n\nFull Changelog: https://github.com/" ++ owner ++ "/" ++ repo ++
             "/compare/" ++ t ++ "..." ++ base
         | none => "")
    · rw [buildPRText_body_eq]
      apply String.ext
      simp [String.data_append, hn]
  · rintro t rfl ht
    refine ⟨"Release prepared by create-release-pr\n\n- Current Tag: " ++
      (if t = "" then "(none)" else t) ++
      ("\n- Next Tag: " ++
        (if next = "" then "(TBD: set bump:major/minor/patch)" else next)) ++
      ("\n- Target: " ++ base) ++ "\n\n---\n" ++
      (if notes = "" then "" else "\n" ++ notes) ++ "\n\n", "", ?_⟩
    rw [buildPRText_body_eq]
    apply String.ext
    simp [String.data_append, ht]
  · rintro rfl
    rw [buildPRText_body_eq]
    apply String.ext
    simp [String.data_append]

/-- C8 witness: on a concrete input with nonempty notes and a known
current tag the body contains the notes text and the compare link. -/
theorem buildPRText_contains_witness :
    strContains (buildPRText "o" "r" "main" (some "v1.0.0") "v1.1.0" "hi").body "hi" ∧
    strContains (buildPRText "o" "r" "main" (some "v1.0.0") "v1.1.0" "hi").body
      ("Full Changelog: https://github.com/" ++ "o" ++ "/" ++ "r" ++
        "/compare/" ++ "v1.0.0" ++ "..." ++ "main") :=
  ⟨(buildPRText_contains "o" "r" "main" (some "v1.0.0") "v1.1.0" "hi").2.2.2.2.1
      (by decide),
   (buildPRText_contains "o" "r" "main" (some "v1.0.0") "v1.1.0" "hi").2.2.2.2.2.1
      "v1.0.0" rfl (by decide)⟩

/-- Any tag returned by `latestTag` is nonempty, carries the prefix and
parses as SemVer after the prefix is stripped. -/
theorem latestTag_parses {tags : List String} {pfx t : String}
    (h : latestTag tags pfx = some t) :
    t ≠ "" ∧ strStarts t pfx = true ∧ ∃ v, parseSemVer (t.drop pfx.length) = some v := by
  simp only [latestTag, Option.map_eq_some'] at h
  obtain ⟨x, hx, rfl⟩ := h
  have hmem : x ∈ keptTags tags pfx :=
    (List.perm_insertionSort semLe (keptTags tags pfx)).mem_iff.mp
      (List.mem_of_mem_getLast? hx)
  obtain ⟨x1, x2⟩ := x
  obtain ⟨_, h1, h2, h3⟩ := mem_keptTags hmem
  exact ⟨h1, h2, x2, h3⟩

/-- The next-tag computation never throws when the current tag comes
from the tag resolver: a resolved tag always parses, and an absent tag
falls back to version 0.0.0. -/
theorem nextTagOf_read_isOk (fl : Flags) (c : Config) (w : World) (lvl : BumpLevel) :
    (nextTagOf c.tagPfx (readTag fl c w) lvl).isOk = true := by
  by_cases hl : lvl = .unknown
  · simp [nextTagOf, hl, Except.isOk, Except.toBool]
  · rcases hr : readTag fl c w with _ | t
    · simp [nextTagOf, hl, calcNext, Except.isOk, Except.toBool]
    · have hparse : t ≠ "" ∧ strStarts t c.tagPfx = true ∧
          ∃ v, parseSemVer (t.drop c.tagPfx.length) = some v := by
        unfold readTag at hr
        split at hr
        · exact absurd hr (by simp)
        · exact latestTag_parses hr
      obtain ⟨h1, h2, v, h3⟩ := hparse
      simp [nextTagOf, hl, calcNext, h1, h2, h3, Except.isOk, Except.toBool]

/-- Default-configuration fixture used by the concrete witnesses. -/
def cfgD : Config :=
  { owner := "o", repo := "r", baseBranch := "main", releaseBranch := "release/pr",
    labelMajor := "bump:major", labelMinor := "bump:minor", labelPatch := "bump:patch",
    tagPfx := "v" }

/-- A merged release pull request carrying no bump label. -/
def relPRD : PRrec :=
  { number := 5, html_url := "u5", headRef := some "release/pr", labels := [],
    title := "t", body := "b", baseRef := "main", isOpen := false }

/-- World in which the pushed commit is the merge of `relPRD`. -/
def worldMerged : World :=
  { tags := [], prs := [], assoc := [relPRD], branches := ["main"],
    notes := fun _ => "", nextNumber := 1, nextUrl := "u1" }

/-- C1 counterexample: a push merging a release pull request with no
bump label does not fail — `run` returns normally, emitting a
`release_required` outcome with empty next tag and no mutation. -/
theorem mergedNoLabel_emits_outcome :
    (runModel cfgD {} .push worldMerged).map (fun x => (x.1, x.2.2)) =
      .ok ({ state := "release_required", pr_number := "", pr_url := "", pr_branch := "",
             current_tag := "", next_tag := "", bump_level := "unknown",
             release_notes := "" }, []) := by
  rfl

/-- C1 amended: when the pushed commit's associated pull requests
include one with head equal to the release branch and its bump-label
classification is `unknown`, the invocation does not fail: it emits a
`release_required` outcome with empty next tag and bump level
`unknown`, performing no mutation. -/
theorem pushMergedNoLabel (c : Config) (fl : Flags) (w : World) (relPR : PRrec)
    (hfa : fl.assocFail = false)
    (hfind : w.assoc.find? (fun p => p.headRef == some c.releaseBranch) = some relPR)
    (hb : detectBump relPR.labels c.labelMajor c.labelMinor c.labelPatch = .unknown) :
    runModel c fl .push w =
      .ok ({ state := "release_required", pr_number := "", pr_url := "", pr_branch := "",
             current_tag := (readTag fl c w).getD "", next_tag := "",
             bump_level := "unknown", release_notes := "" }, w, []) := by
  simp [runModel, hfa, hfind, pushRelPath, hb, nextTagOf, bumpStr]

/-- C1 amended witness: the concrete merged-without-label world. -/
theorem pushMergedNoLabel_witness :
    runModel cfgD {} .push worldMerged =
      .ok ({ state := "release_required", pr_number := "", pr_url := "", pr_branch := "",
             current_tag := (readTag {} cfgD worldMerged).getD "", next_tag := "",
             bump_level := "unknown", release_notes := "" }, worldMerged, []) :=
  pushMergedNoLabel cfgD {} worldMerged relPRD rfl rfl rfl

/-- C2: a push whose associated-commit pull requests include one with
head equal to the configured release branch performs no pull-request,
branch, ref or commit mutation, leaves the world unchanged and emits a
`release_required` outcome with empty pr_number, pr_url and pr_branch
fields. -/
theorem pushRecursionGuard (c : Config) (fl : Flags) (w : World) (relPR : PRrec)
    (hfa : fl.assocFail = false)
    (hfind : w.assoc.find? (fun p => p.headRef == some c.releaseBranch) = some relPR) :
    ∃ nt, runModel c fl .push w =
      .ok ({ state := "release_required", pr_number := "", pr_url := "", pr_branch := "",
             current_tag := (readTag fl c w).getD "", next_tag := nt,
             bump_level := bumpStr (detectBump relPR.labels c.labelMajor c.labelMinor
               c.labelPatch),
             release_notes := "" }, w, []) := by
  have hok := nextTagOf_read_isOk fl c w
    (detectBump relPR.labels c.labelMajor c.labelMinor c.labelPatch)
  rcases hnt : nextTagOf c.tagPfx (readTag fl c w)
      (detectBump relPR.labels c.labelMajor c.labelMinor c.labelPatch) with e | s
  · rw [hnt] at hok
    exact absurd hok (by simp [Except.isOk, Except.toBool])
  · refine ⟨s, ?_⟩
    simp [runModel, hfa, hfind, pushRelPath, hnt]

/-- C2 witness: the concrete merged-release-pull-request world. -/
theorem pushRecursionGuard_witness :
    ∃ nt, runModel cfgD {} .push worldMerged =
      .ok ({ state := "release_required", pr_number := "", pr_url := "", pr_branch := "",
             current_tag := (readTag {} cfgD worldMerged).getD "", next_tag := nt,
             bump_level := bumpStr (detectBump relPRD.labels cfgD.labelMajor
               cfgD.labelMinor cfgD.labelPatch),
             release_notes := "" }, worldMerged, []) :=
  pushRecursionGuard cfgD {} worldMerged relPRD rfl rfl

/-- Open release pull request number 7 stored on the platform. -/
def prRec7 : PRrec :=
  { number := 7, html_url := "u7", headRef := some "release/pr", labels := [],
    title := "old", body := "old", baseRef := "main", isOpen := true }

/-- Label-event payload whose pull request has no head object. -/
def prNoHead : EventPR :=
  { number := 7, html_url := "u7", headRef := none, labels := [] }

/-- World carrying the open release pull request number 7. -/
def worldPR : World :=
  { tags := [], prs := [prRec7], assoc := [], branches := ["main"],
    notes := fun _ => "nn", nextNumber := 9, nextUrl := "u9" }

/-- C9 counterexample: a `labeled` event whose pull request payload has
no head branch is not treated as `noop`: the pull request is patched and
`pr_changed` is emitted. -/
theorem headlessLabelEventUpdates :
    (runModel cfgD {} (.pullRequest "labeled" (some prNoHead)) worldPR).map
        (fun x => (x.1, x.2.2)) =
      .ok ({ state := "pr_changed", pr_number := "7", pr_url := "u7",
             pr_branch := "release/pr", current_tag := "", next_tag := "",
             bump_level := "unknown", release_notes := "nn" },
           [Mut.patchPR 7 "Release for new version"
             "Release prepared by create-release-pr\n\n- Current Tag: (none)\n- Next Tag: (TBD: set bump:major/minor/patch)\n- Target: main\n\n---\n\nnn"]) := by
  rfl

/-- C9 amended: on a `pull_request` event, an action other than
`labeled`/`unlabeled`, a missing pull request payload, or a present head
branch different from the release branch each yield `noop` with no
mutation; when the head branch matches the release branch — or when the
payload has no head branch at all — the run takes the update path, and
on success that path emits `pr_changed` with exactly one pull-request
patch mutation. -/
theorem pullRequestRouting (c : Config) (fl : Flags) (w : World) (action : String)
    (pr? : Option EventPR) :
    (¬(action = "labeled" ∨ action = "unlabeled") →
      runModel c fl (.pullRequest action pr?) w = .ok (noopOutcome, w, [])) ∧
    ((action = "labeled" ∨ action = "unlabeled") → pr? = none →
      runModel c fl (.pullRequest action pr?) w = .ok (noopOutcome, w, [])) ∧
    (∀ pr r, (action = "labeled" ∨ action = "unlabeled") → pr? = some pr →
      pr.headRef = some r → r ≠ c.releaseBranch →
      runModel c fl (.pullRequest action pr?) w = .ok (noopOutcome, w, [])) ∧
    (∀ pr, (action = "labeled" ∨ action = "unlabeled") → pr? = some pr →
      (pr.headRef = some c.releaseBranch ∨ pr.headRef = none) →
      runModel c fl (.pullRequest action pr?) w = prLabelPath c fl w pr) ∧
    (∀ pr o w' m, prLabelPath c fl w pr = .ok (o, w', m) →
      o.state = "pr_changed" ∧ ∃ ti bo, m = [Mut.patchPR pr.number ti bo]) := by
  refine ⟨?_, ?_, ?_, ?_, ?_⟩
  · intro h
    simp [runModel, h]
  · rintro h rfl
    simp [runModel, h]
  · rintro pr r h rfl hhead hne
    simp [runModel, h, hhead, hne]
  · rintro pr h rfl hhead
    rcases hhead with hh | hh <;> simp [runModel, h, hh]
  · intro pr o w' m h
    simp only [prLabelPath] at h
    split at h
    · exact absurd h (by simp)
    · split at h
      · exact absurd h (by simp)
      · simp only [Except.ok.injEq, Prod.mk.injEq] at h
        obtain ⟨ho, -, hm⟩ := h
        subst ho hm
        exact ⟨rfl, _, _, rfl⟩

/-- Label-event payload whose pull request head is a feature branch. -/
def prFeature : EventPR :=
  { number := 3, html_url := "u3", headRef := some "feature", labels := [] }

/-- C9 amended witness: a `labeled` event on a pull request whose head
is a feature branch yields `noop`. -/
theorem pullRequestRouting_witness :
    runModel cfgD {} (.pullRequest "labeled" (some prFeature)) worldPR =
      .ok (noopOutcome, worldPR, []) :=
  (pullRequestRouting cfgD {} worldPR "labeled" (some prFeature)).2.2.1
    prFeature "feature" (Or.inl rfl) rfl rfl (by decide)

/-- World with no open release pull request and no release branch. -/
def worldNoPR : World :=
  { tags := [], prs := [], assoc := [], branches := ["main"],
    notes := fun _ => "", nextNumber := 3, nextUrl := "u3" }

/-- C10: on a push that is not a release-branch merge, when the
open-pull-request search call fails the failure is swallowed and treated
as "no open pull request": the run proceeds to the creation path, which
on success ensures the release branch, creates a new pull request and
emits `pr_changed`. -/
theorem searchFailureCreates (c : Config) (fl : Flags) (w : World)
    (hff : fl.findFail = true)
    (hassoc : (if fl.assocFail then [] else w.assoc).find?
        (fun p => p.headRef == some c.releaseBranch) = none) :
    runModel c fl .push w = pushCreatePath c fl w (readTag fl c w) ∧
    (∀ o w' m, pushCreatePath c fl w (readTag fl c w) = .ok (o, w', m) →
      o.state = "pr_changed" ∧ o.pr_number = toString w.nextNumber ∧
      ∃ pre ti bo, m = pre ++ [Mut.createPR ti c.releaseBranch c.baseBranch bo]) := by
  constructor
  · simp [runModel, hassoc, hff]
  · intro o w' m h
    unfold pushCreatePath at h
    rcases he : ensureReleaseBranch c w with e | p
    · rw [he] at h
      exact absurd h (by simp)
    · obtain ⟨w1, muts⟩ := p
      have hnum : w1.nextNumber = w.nextNumber := by
        unfold ensureReleaseBranch at he
        split_ifs at he <;> simp only [Except.ok.injEq, Prod.mk.injEq] at he <;>
          obtain ⟨hw, -⟩ := he <;> subst hw <;> rfl
      rw [he] at h
      simp only [createPR, Except.ok.injEq, Prod.mk.injEq] at h
      obtain ⟨ho, -, hm⟩ := h
      subst ho hm
      exact ⟨rfl, by simp [hnum], muts, _, _, rfl⟩

/-- C10 witness: with the search marked as failing on a world with no
open release pull request, the run equals the creation path. -/
theorem searchFailureCreates_witness :
    runModel cfgD { findFail := true } .push worldNoPR =
      pushCreatePath cfgD { findFail := true } worldNoPR
        (readTag { findFail := true } cfgD worldNoPR) :=
  (searchFailureCreates cfgD { findFail := true } worldNoPR rfl rfl).1

theorem setTB_number (ti bo : String) (n : Nat) (x : PRrec) :
    (setTB ti bo n x).number = x.number := by
  unfold setTB; split <;> rfl

theorem setTB_headRef (ti bo : String) (n : Nat) (x : PRrec) :
    (setTB ti bo n x).headRef = x.headRef := by
  unfold setTB; split <;> rfl

theorem setTB_labels (ti bo : String) (n : Nat) (x : PRrec) :
    (setTB ti bo n x).labels = x.labels := by
  unfold setTB; split <;> rfl

theorem setTB_isOpen (ti bo : String) (n : Nat) (x : PRrec) :
    (setTB ti bo n x).isOpen = x.isOpen := by
  unfold setTB; split <;> rfl

theorem setTB_baseRef (ti bo : String) (n : Nat) (x : PRrec) :
    (setTB ti bo n x).baseRef = x.baseRef := by
  unfold setTB; split <;> rfl

theorem setTB_html_url (ti bo : String) (n : Nat) (x : PRrec) :
    (setTB ti bo n x).html_url = x.html_url := by
  unfold setTB; split <;> rfl

theorem setTB_setTB (ti bo : String) (n : Nat) (x : PRrec) :
    setTB ti bo n (setTB ti bo n x) = setTB ti bo n x := by
  unfold setTB
  by_cases h : x.number == n <;> simp [h]

/-- Eliminating a successful `PATCH`: the target was found, the response
is the retitled record, and only the `prs` list of the world changed. -/
theorem patchPR_some_elim {w : World} {n : Nat} {ti bo : String} {w1 : World} {r : PRrec}
    (h : patchPR w n ti bo = (w1, some r)) :
    ∃ p, w.prs.find? (fun q => q.number == n) = some p ∧
      r = { p with title := ti, body := bo } ∧
      w1 = { w with prs := w.prs.map (setTB ti bo n) } := by
  unfold patchPR at h
  split at h
  · simp at h
  · rename_i p hp
    simp only [Prod.mk.injEq, Option.some.injEq] at h
    exact ⟨p, hp, h.2.symm, h.1.symm⟩

/-- Patching the same title/body a second time is a no-op: the world and
the response repeat. -/
theorem patchPR_idem {w : World} {n : Nat} {ti bo : String} {w1 : World} {r : PRrec}
    (h : patchPR w n ti bo = (w1, some r)) :
    patchPR w1 n ti bo = (w1, some r) := by
  obtain ⟨p, hp, hr, hw⟩ := patchPR_some_elim h
  subst hr hw
  have hpn := List.find?_some hp
  simp only [] at hpn
  have hset : setTB ti bo n p = { p with title := ti, body := bo } := by
    simp [setTB, hpn]
  unfold patchPR
  rw [show ∀ l : List PRrec, (l.map (setTB ti bo n)).find? (fun q => q.number == n) =
      (l.find? (fun q => q.number == n)).map (setTB ti bo n) from ?_]
  · rw [hp]
    simp only [Option.map_some']
    have hmap : (w.prs.map (setTB ti bo n)).map (setTB ti bo n) =
        w.prs.map (setTB ti bo n) := by
      rw [List.map_map]
      exact List.map_congr_left fun x _ => setTB_setTB ti bo n x
    simp [hmap, hset]
  · intro l
    rw [List.find?_map]
    have hcomp : ((fun q : PRrec => q.number == n) ∘ setTB ti bo n) =
        (fun q : PRrec => q.number == n) := by
      funext x
      simp [Function.comp, setTB_number]
    rw [hcomp]

/-- Mapping `setTB` over the pull-request list commutes with filtering
by a predicate that ignores title and body. -/
theorem filter_map_setTB (l : List PRrec) (ti bo : String) (n : Nat) (q : PRrec → Bool)
    (hq : ∀ x, q (setTB ti bo n x) = q x) :
    (l.map (setTB ti bo n)).filter q = (l.filter q).map (setTB ti bo n) := by
  rw [List.filter_map]
  have hcomp : (q ∘ setTB ti bo n) = q := funext fun x => hq x
  rw [hcomp]

/-- With pairwise-distinct numbers, finding by a member's number returns
that member. -/
theorem find?_number_of_nodup {l : List PRrec}
    (hnodup : l.Pairwise (fun a b => a.number ≠ b.number)) {ex : PRrec} (hmem : ex ∈ l) :
    l.find? (fun p => p.number == ex.number) = some ex := by
  induction l with
  | nil => cases hmem
  | cons a t ih =>
    rcases List.mem_cons.mp hmem with rfl | hm
    · rw [List.find?_cons_of_pos _ (by simp)]
    · have hne : a.number ≠ ex.number := (List.pairwise_cons.mp hnodup).1 ex hm
      rw [List.find?_cons_of_neg _ (by simp [hne])]
      exact ih (List.pairwise_cons.mp hnodup).2 hm

/-- A found open release pull request is a member with the searched-for
head, base and open state. -/
theorem findOpen_mem {prs : List PRrec} {c : Config} {ex : PRrec}
    (h : findOpenReleasePR prs c = some ex) :
    ex ∈ prs ∧ ex.isOpen = true ∧ ex.baseRef = c.baseBranch ∧
      ex.headRef = some c.releaseBranch := by
  unfold findOpenReleasePR at h
  have hmem := List.mem_of_mem_head? h
  have := List.mem_filter.mp hmem
  refine ⟨this.1, ?_, ?_, ?_⟩ <;>
    · have h2 := this.2
      simp only [Bool.and_eq_true, beq_iff_eq] at h2
      tauto

theorem findOpen_none_iff {prs : List PRrec} {c : Config} :
    findOpenReleasePR prs c = none ↔
      prs.filter (fun p => p.isOpen && p.baseRef == c.baseBranch &&
        p.headRef == some c.releaseBranch) = [] := by
  unfold findOpenReleasePR
  exact List.head?_eq_none_iff

theorem readTag_congr {fl : Flags} {c : Config} {w w2 : World} (h : w2.tags = w.tags) :
    readTag fl c w2 = readTag fl c w := by
  unfold readTag; rw [h]

theorem readNotes_congr {fl : Flags} {w w2 : World} (h : w2.notes = w.notes)
    (t : String) : readNotes fl w2 t = readNotes fl w t := by
  unfold readNotes; rw [h]

theorem readTag_prs (fl : Flags) (c : Config) (w : World) (X : List PRrec) :
    readTag fl c { w with prs := X } = readTag fl c w := rfl

theorem readNotes_prs (fl : Flags) (w : World) (X : List PRrec) (t : String) :
    readNotes fl { w with prs := X } t = readNotes fl w t := rfl

/-- The recursion-guard branch leaves the world untouched and issues no
mutation. -/
theorem pushRelPath_elim {c : Config} {fl : Flags} {w : World} {relPR : PRrec}
    {o : Outcome} {w' : World} {m : List Mut}
    (h : pushRelPath c fl w relPR = .ok (o, w', m)) : w' = w ∧ m = [] := by
  simp only [pushRelPath] at h
  split at h
  · exact absurd h (by simp)
  · simp only [Except.ok.injEq, Prod.mk.injEq] at h
    exact ⟨h.2.1.symm, h.2.2.symm⟩

/-- Repeating the label-event update path on its own post-state repeats
the outcome, post-state and mutation. -/
theorem prLabelPath_idem {c : Config} {fl : Flags} {w : World} {pr : EventPR}
    {o : Outcome} {w' : World} {m : List Mut}
    (h : prLabelPath c fl w pr = .ok (o, w', m)) :
    prLabelPath c fl w' pr = .ok (o, w', m) := by
  simp only [prLabelPath] at h ⊢
  rcases hnt : nextTagOf c.tagPfx (readTag fl c w)
      (detectBump pr.labels c.labelMajor c.labelMinor c.labelPatch) with e | s
  · rw [hnt] at h
    exact absurd h (by simp)
  · rw [hnt] at h
    dsimp only at h
    split at h
    · exact absurd h (by simp)
    · rename_i w1 r heq
      simp only [Except.ok.injEq, Prod.mk.injEq] at h
      obtain ⟨ho, hw, hm⟩ := h
      subst hw
      obtain ⟨p, hp, hr, hw1⟩ := patchPR_some_elim heq
      subst hw1
      rw [readTag_prs, hnt]
      dsimp only
      simp only [readNotes_prs]
      rw [patchPR_idem heq]
      rw [ho, hm]

theorem readTag_branches (fl : Flags) (c : Config) (w : World) (B : List String) :
    readTag fl c { w with branches := B } = readTag fl c w := rfl

theorem readNotes_branches (fl : Flags) (w : World) (B : List String) (t : String) :
    readNotes fl { w with branches := B } t = readNotes fl w t := rfl

theorem detectBump_nil (lM lm lp : String) : detectBump [] lM lm lp = .unknown := by
  simp [detectBump]

theorem nextTagOf_unknown (pfx : String) (cur : Option String) :
    nextTagOf pfx cur .unknown = .ok "" := by
  simp [nextTagOf]

/-- After a fresh release pull request has been appended to the world,
the second run sees it: the open-PR search returns it, patching it with
its own title and body is a no-op, and the tag and notes reads are
unchanged. -/
theorem secondRunFacts (c : Config) (fl : Flags) (w w2 : World) (cr : PRrec)
    (hnum : cr.number = w.nextNumber)
    (hhead : cr.headRef = some c.releaseBranch)
    (hbase : cr.baseRef = c.baseBranch)
    (hopen : cr.isOpen = true)
    (hw2prs : w2.prs = w.prs ++ [cr])
    (hw2tags : w2.tags = w.tags)
    (hw2notes : w2.notes = w.notes)
    (hfresh : ∀ p ∈ w.prs, p.number ≠ w.nextNumber)
    (hE : findOpenReleasePR w.prs c = none) :
    findOpenReleasePR w2.prs c = some cr ∧
    patchPR w2 cr.number cr.title cr.body = (w2, some cr) ∧
    readTag fl c w2 = readTag fl c w ∧
    (∀ t, readNotes fl w2 t = readNotes fl w t) := by
  have hfilter : w.prs.filter (fun p => p.isOpen && p.baseRef == c.baseBranch &&
      p.headRef == some c.releaseBranch) = [] := findOpen_none_iff.mp hE
  refine ⟨?_, ?_, readTag_congr hw2tags, fun t => readNotes_congr hw2notes t⟩
  · unfold findOpenReleasePR
    rw [hw2prs, List.filter_append, hfilter, List.nil_append]
    have hpred : (cr.isOpen && cr.baseRef == c.baseBranch &&
        cr.headRef == some c.releaseBranch) = true := by
      rw [hopen, hbase, hhead]
      simp
    simp [List.filter, hpred]
  · have hfind : w2.prs.find? (fun q => q.number == cr.number) = some cr := by
      rw [hw2prs, List.find?_append]
      have hleft : w.prs.find? (fun q => q.number == cr.number) = none := by
        rw [List.find?_eq_none]
        intro x hx
        simp only [beq_iff_eq, hnum]
        exact hfresh x hx
      rw [hleft]
      have : (cr.number == cr.number) = true := by simp
      simp [List.find?, this]
    have hmap : w2.prs.map (setTB cr.title cr.body cr.number) = w2.prs := by
      rw [hw2prs, List.map_append]
      have h1 : w.prs.map (setTB cr.title cr.body cr.number) = w.prs := by
        have hcg := List.map_congr_left (l := w.prs)
          (f := setTB cr.title cr.body cr.number) (g := id) (fun x hx => by
            have hne : (x.number == cr.number) = false := by
              simp only [hnum, beq_eq_false_iff_ne, ne_eq]
              exact hfresh x hx
            simp [setTB, hne])
        rw [hcg, List.map_id]
      have h2 : setTB cr.title cr.body cr.number cr = cr := by
        have hself : (cr.number == cr.number) = true := by simp
        simp [setTB, hself]
      rw [h1, List.map_singleton, h2]
    unfold patchPR
    rw [hfind]
    dsimp only
    rw [hmap]

/-- Repeating the push-update path on its own post-state, with the
re-found (retitled) pull request, repeats the outcome and post-state. -/
theorem pushExistingPath_idem {c : Config} {fl : Flags} {w : World} {ex : PRrec}
    {o : Outcome} {w' : World} {m : List Mut}
    (h : pushExistingPath c fl w (readTag fl c w) ex = .ok (o, w', m)) :
    ∃ ti bo,
      w' = { w with prs := w.prs.map (setTB ti bo ex.number) } ∧
      pushExistingPath c fl w' (readTag fl c w') (setTB ti bo ex.number ex) =
        .ok (o, w', m) := by
  simp only [pushExistingPath] at h ⊢
  rcases hnt : nextTagOf c.tagPfx (readTag fl c w)
      (detectBump ex.labels c.labelMajor c.labelMinor c.labelPatch) with e | s
  · rw [hnt] at h
    exact absurd h (by simp)
  · rw [hnt] at h
    dsimp only at h
    split at h
    · exact absurd h (by simp)
    · rename_i w1 r heq
      simp only [Except.ok.injEq, Prod.mk.injEq] at h
      obtain ⟨ho, hw, hm⟩ := h
      subst hw
      obtain ⟨p, hp, hr, hw1⟩ := patchPR_some_elim heq
      subst hw1
      refine ⟨_, _, rfl, ?_⟩
      rw [setTB_labels, setTB_number, readTag_prs, hnt]
      dsimp only
      simp only [readNotes_prs]
      rw [patchPR_idem heq]
      dsimp only
      rw [ho, hm]

/-- The pull-request record resulting from the creation path: fresh
number and url, release branch head, no labels, and the generated
title/body. -/
def createdRec (c : Config) (fl : Flags) (w : World) : PRrec :=
  { number := w.nextNumber, html_url := w.nextUrl, headRef := some c.releaseBranch,
    labels := [],
    title := (buildPRText c.owner c.repo c.baseBranch (readTag fl c w) ""
      (readNotes fl w (c.tagPfx ++ "next"))).title,
    body := (buildPRText c.owner c.repo c.baseBranch (readTag fl c w) ""
      (readNotes fl w (c.tagPfx ++ "next"))).body,
    baseRef := c.baseBranch, isOpen := true }

/-- Full second-run reduction after a pull request has been freshly
created: the update path patches the created pull request with its own
title and body and reproduces the creation outcome. -/
theorem secondRunCreate (c : Config) (fl : Flags) (w w2 : World) (cr : PRrec)
    (hnum : cr.number = w.nextNumber)
    (hhead : cr.headRef = some c.releaseBranch)
    (hbase : cr.baseRef = c.baseBranch)
    (hopen : cr.isOpen = true)
    (hlab : cr.labels = [])
    (htitle : cr.title = (buildPRText c.owner c.repo c.baseBranch (readTag fl c w) ""
      (readNotes fl w (c.tagPfx ++ "next"))).title)
    (hbody : cr.body = (buildPRText c.owner c.repo c.baseBranch (readTag fl c w) ""
      (readNotes fl w (c.tagPfx ++ "next"))).body)
    (hw2prs : w2.prs = w.prs ++ [cr])
    (hw2tags : w2.tags = w.tags)
    (hw2notes : w2.notes = w.notes)
    (hfresh : ∀ p ∈ w.prs, p.number ≠ w.nextNumber)
    (hE : findOpenReleasePR w.prs c = none) :
    findOpenReleasePR w2.prs c = some cr ∧
    pushExistingPath c fl w2 (readTag fl c w2) cr =
      .ok ({ state := "pr_changed", pr_number := toString cr.number,
             pr_url := cr.html_url, pr_branch := c.releaseBranch,
             current_tag := (readTag fl c w).getD "", next_tag := "",
             bump_level := "unknown",
             release_notes := readNotes fl w (c.tagPfx ++ "next") },
           w2, [Mut.patchPR cr.number cr.title cr.body]) := by
  obtain ⟨hfind, hpatch, hrt, hrn⟩ :=
    secondRunFacts c fl w w2 cr hnum hhead hbase hopen hw2prs hw2tags hw2notes hfresh hE
  refine ⟨hfind, ?_⟩
  simp only [pushExistingPath]
  rw [hrt, hlab, detectBump_nil, nextTagOf_unknown]
  dsimp only
  rw [if_pos rfl]
  simp only [hrn]
  rw [← htitle, ← hbody, hpatch]
  dsimp only [bumpStr]


/-- C3: on a fixed well-formed platform state (pull-request numbers
nonzero and distinct from the next number to be assigned, and the
open-PR search responding from the state), if one reconciliation run
succeeds with outcome `o` and post-state `w'`, then running the
reconciliation again (the platform responses now reflecting only the
run's own writes, with no other state change) yields the very same
outcome `o` and the same post-state `w'`. -/
theorem runModel_idem (c : Config) (fl : Flags) (ev : Event) (w : World)
    (hff : fl.findFail = false)
    (hz : ∀ p ∈ w.prs, p.number ≠ 0)
    (hfresh : ∀ p ∈ w.prs, p.number ≠ w.nextNumber)
    (hnz : w.nextNumber ≠ 0)
    (o : Outcome) (w' : World) (m : List Mut)
    (h1 : runModel c fl ev w = .ok (o, w', m)) :
    ∃ m2, runModel c fl ev w' = .ok (o, w', m2) := by
  cases ev with
  | other =>
    simp only [runModel, Except.ok.injEq, Prod.mk.injEq] at h1
    obtain ⟨ho, hw, hm⟩ := h1
    subst ho hw
    exact ⟨[], rfl⟩
  | pullRequest action pr? =>
    simp only [runModel] at h1 ⊢
    by_cases hact : action = "labeled" ∨ action = "unlabeled"
    · rw [if_pos hact] at h1 ⊢
      cases pr? with
      | none =>
        simp only [Except.ok.injEq, Prod.mk.injEq] at h1
        obtain ⟨ho, hw, hm⟩ := h1
        subst ho hw
        exact ⟨[], rfl⟩
      | some pr =>
        dsimp only at h1 ⊢
        rcases hh : pr.headRef with _ | r
        · rw [hh] at h1
          dsimp only at h1 ⊢
          exact ⟨m, prLabelPath_idem h1⟩
        · rw [hh] at h1
          dsimp only at h1 ⊢
          by_cases hrel : r = c.releaseBranch
          · rw [if_pos hrel] at h1 ⊢
            exact ⟨m, prLabelPath_idem h1⟩
          · rw [if_neg hrel] at h1 ⊢
            simp only [Except.ok.injEq, Prod.mk.injEq] at h1
            obtain ⟨ho, hw, hm⟩ := h1
            subst ho hw
            exact ⟨[], rfl⟩
    · rw [if_neg hact] at h1 ⊢
      simp only [Except.ok.injEq, Prod.mk.injEq] at h1
      obtain ⟨ho, hw, hm⟩ := h1
      subst ho hw
      exact ⟨[], rfl⟩
  | push =>
    simp only [runModel] at h1 ⊢
    rcases hA : (if fl.assocFail = true then [] else w.assoc).find?
        (fun p => p.headRef == some c.releaseBranch) with _ | relPR
    · rw [hA] at h1
      dsimp only at h1
      rw [hff] at h1 ⊢
      simp only [Bool.false_eq_true, if_false] at h1 ⊢
      rcases hE : findOpenReleasePR w.prs c with _ | ex
      · rw [hE] at h1
        dsimp only at h1
        simp only [pushCreatePath] at h1
        split at h1
        · exact absurd h1 (by simp)
        · rename_i w1 muts heq
          dsimp only [createPR] at h1
          simp only [Except.ok.injEq, Prod.mk.injEq] at h1
          obtain ⟨ho, hw, hm⟩ := h1
          unfold ensureReleaseBranch at heq
          split_ifs at heq with hb1 hb2
          · simp only [Except.ok.injEq, Prod.mk.injEq] at heq
            obtain ⟨hq1, hq2⟩ := heq
            subst hq1
            have hprs : w'.prs = w.prs ++ [createdRec c fl w] := by
              rw [← hw]
              rfl
            have htags : w'.tags = w.tags := by rw [← hw]
            have hnotes : w'.notes = w.notes := by rw [← hw]
            have hassoc : w'.assoc = w.assoc := by rw [← hw]
            obtain ⟨hfind, hrun⟩ := secondRunCreate c fl w w' (createdRec c fl w)
              rfl rfl rfl rfl rfl rfl rfl hprs htags hnotes hfresh hE
            refine ⟨[Mut.patchPR (createdRec c fl w).number (createdRec c fl w).title
              (createdRec c fl w).body], ?_⟩
            rw [hassoc, hA]
            dsimp only
            rw [hfind]
            dsimp only
            rw [if_pos (show (createdRec c fl w).number ≠ 0 from hnz)]
            rw [hrun]
            dsimp only [createdRec]
            rw [ho]
          · simp only [Except.ok.injEq, Prod.mk.injEq] at heq
            obtain ⟨hq1, hq2⟩ := heq
            subst hq1
            dsimp only at ho hw
            simp only [readNotes_branches] at ho hw
            have hprs : w'.prs = w.prs ++ [createdRec c fl w] := by
              rw [← hw]
              rfl
            have htags : w'.tags = w.tags := by rw [← hw]
            have hnotes : w'.notes = w.notes := by rw [← hw]
            have hassoc : w'.assoc = w.assoc := by rw [← hw]
            obtain ⟨hfind, hrun⟩ := secondRunCreate c fl w w' (createdRec c fl w)
              rfl rfl rfl rfl rfl rfl rfl hprs htags hnotes hfresh hE
            refine ⟨[Mut.patchPR (createdRec c fl w).number (createdRec c fl w).title
              (createdRec c fl w).body], ?_⟩
            rw [hassoc, hA]
            dsimp only
            rw [hfind]
            dsimp only
            rw [if_pos (show (createdRec c fl w).number ≠ 0 from hnz)]
            rw [hrun]
            dsimp only [createdRec]
            rw [ho]
      · rw [hE] at h1
        dsimp only at h1
        have hmem := (findOpen_mem hE).1
        have hxnz : ex.number ≠ 0 := hz ex hmem
        rw [if_pos hxnz] at h1
        obtain ⟨ti, bo, hw', hrun2⟩ := pushExistingPath_idem h1
        subst hw'
        dsimp only
        rw [hA]
        dsimp only
        have hfind2 : findOpenReleasePR (w.prs.map (setTB ti bo ex.number)) c =
            some (setTB ti bo ex.number ex) := by
          unfold findOpenReleasePR at hE ⊢
          rw [filter_map_setTB _ _ _ _ _ (fun x => by
            simp only [setTB_isOpen, setTB_baseRef, setTB_headRef])]
          rw [List.head?_map, hE]
          rfl
        rw [hfind2]
        dsimp only
        rw [setTB_number, if_pos hxnz]
        exact ⟨m, hrun2⟩
    · rw [hA] at h1
      dsimp only at h1
      obtain ⟨hw', hm'⟩ := pushRelPath_elim h1
      subst hw'
      rw [hA]
      dsimp only
      exact ⟨m, h1⟩


/-- C3 witness: on the concrete merged-release-pull-request world the
second run repeats the first run's outcome and post-state. -/
theorem runModel_idem_witness :
    ∃ m2, runModel cfgD {} .push worldMerged =
      .ok ({ state := "release_required", pr_number := "", pr_url := "", pr_branch := "",
             current_tag := "", next_tag := "", bump_level := "unknown",
             release_notes := "" }, worldMerged, m2) :=
  runModel_idem cfgD {} .push worldMerged rfl (by simp [worldMerged])
    (by simp [worldMerged]) (by decide)
    { state := "release_required", pr_number := "", pr_url := "", pr_branch := "",
      current_tag := "", next_tag := "", bump_level := "unknown", release_notes := "" }
    worldMerged [] (by rfl)

end CRPR
